import Mathlib

/-!
Shallow embedding of the resilient retrieval core of the FlibustaBot
repository (the modules imported by `main.py`: `config.py`,
`services/service.py`, `services/db.py`, plus the legacy top-level
`db.py` settings store), together with theorems settling the frozen
claims about mirror selection, penalty accounting, retry/fallback
behaviour, the rate gate, the connection pool and the settings store.
-/

namespace Flibusta

/- ===== config.py ===== -/

/-- `FLIBUSTA_MIRRORS` from `config.py` (lines 9-12): the ordered list of
mirror base addresses. -/
def FLIBUSTA_MIRRORS : List String :=
  ["https://flibusta.is", "https://flibusta.site"]

/-- `RATE_LIMIT_RPS = 0.5` from `config.py` (line 31), as an exact rational. -/
def RATE_LIMIT_RPS : ℚ := 1 / 2

/- ===== services/service.py : mirror registry ===== -/

/-- One entry of `mirror_state`: the dict `{"url": m, "penalty": 0}`
(`services/service.py` line 17).  The penalty is an integer counter. -/
structure Mirror where
  url : String
  penalty : Int
deriving DecidableEq, Repr

/-- The registry is the mutable list `mirror_state`; both the order of the
list and the penalties evolve over the life of the process. -/
abbrev Registry := List Mirror

/-- Initial `mirror_state = [{"url": m, "penalty": 0} for m in FLIBUSTA_MIRRORS]`
(`services/service.py` line 17). -/
def mirror_state : Registry :=
  FLIBUSTA_MIRRORS.map (fun m => { url := m, penalty := 0 })

/-- The sort key of `mirror_state.sort(key=lambda x: x["penalty"])`
(`services/service.py` line 90). -/
def penaltyLE (a b : Mirror) : Prop := a.penalty ≤ b.penalty

instance : DecidableRel penaltyLE := fun a b => inferInstanceAs (Decidable (a.penalty ≤ b.penalty))

instance : IsTotal Mirror penaltyLE := ⟨fun a b => le_total a.penalty b.penalty⟩

instance : IsTrans Mirror penaltyLE := ⟨fun _ _ _ => le_trans⟩

/-- `mirror_state.sort(key=lambda x: x["penalty"])` (`services/service.py`
line 90).  Python's `list.sort` is a stable sort on the current list
order; a stable insertion sort has the same behaviour. -/
def sortByPenalty (reg : Registry) : Registry :=
  reg.insertionSort penaltyLE

/-- `_pick_best_mirror` (`services/service.py` lines 88-91): sorts
`mirror_state` in place by penalty and returns the head.  The in-place
reordering is modelled by returning the sorted registry together with
the picked mirror; the empty-list case (where Python's `mirror_state[0]`
would raise `IndexError`) yields `none`. -/
def pickBestMirror (reg : Registry) : Registry × Option Mirror :=
  let sorted := sortByPenalty reg
  (sorted, sorted.head?)

/-- `_bump_penalty` (`services/service.py` lines 94-96):
`mirror["penalty"] = mirror.get("penalty", 0) + delta`.  The mirror dict
is aliased into the registry list; mutation is modelled by updating the
entry with the matching (unique) url. -/
def bumpPenalty (reg : Registry) (u : String) (delta : Int) : Registry :=
  reg.map (fun m => if m.url == u then { m with penalty := m.penalty + delta } else m)

/-- `_decay_penalty` (`services/service.py` lines 99-101):
`mirror["penalty"] = max(0, mirror.get("penalty", 0) - delta)`. -/
def decayPenalty (reg : Registry) (u : String) (delta : Int) : Registry :=
  reg.map (fun m => if m.url == u then { m with penalty := max 0 (m.penalty - delta) } else m)

/-- Reads the penalty currently stored for the mirror with address `u`. -/
def penaltyOf (reg : Registry) (u : String) : Option Int :=
  (reg.find? (fun m => m.url == u)).map (fun m => m.penalty)

/-- The registry operations performed by the fetch layer: `_pick_best_mirror`
(which reorders the list), `_decay_penalty mirror 1` on success, and
`_bump_penalty mirror w` on failure, where `w = 2` for timeouts and
transport exceptions and `w = 1` otherwise (call sites at
`services/service.py` lines 123, 128, 132, 136, 309, 313, 317, 322, 326). -/
inductive RegOp where
  | pick
  | success (u : String)
  | failure (u : String) (timeoutOrExc : Bool)
deriving DecidableEq, Repr

/-- Applies one registry operation. -/
def applyRegOp (reg : Registry) : RegOp → Registry
  | .pick => sortByPenalty reg
  | .success u => decayPenalty reg u 1
  | .failure u b => bumpPenalty reg u (if b then 2 else 1)

/-- Applies a sequence of registry operations. -/
def applyRegOps (reg : Registry) (ops : List RegOp) : Registry :=
  ops.foldl applyRegOp reg

/-- All penalties in the registry are non-negative. -/
def nonNegReg (reg : Registry) : Bool :=
  reg.all (fun m => decide (0 ≤ m.penalty))

/-- The first mirror of the list attaining the minimal penalty — the
tie-break that a stable sort actually implements (ties resolve to the
earlier element of the *current* list order). -/
def firstMin : Registry → Option Mirror
  | [] => none
  | m :: rest =>
    match firstMin rest with
    | none => some m
    | some b => if b.penalty < m.penalty then some b else some m

/- ===== services/service.py : rate gate ===== -/

/-- The rate-gate state: the module global `_last_request_mono`
(`services/service.py` line 20). -/
structure RateState where
  lastRequestMono : ℚ
deriving DecidableEq, Repr

/-- `rate_limit` (`services/service.py` lines 75-85).  Time is modelled
exactly with rationals; the call is modelled as a function of the
configured rate, the current monotonic clock and the gate state,
returning the new state and the duration slept.  When
`RATE_LIMIT_RPS <= 0` the function returns immediately (line 77-78)
without touching the state, sleeping, or computing `1.0 / RATE_LIMIT_RPS`. -/
def rate_limit (rps : ℚ) (now : ℚ) (st : RateState) : RateState × ℚ :=
  if rps ≤ 0 then (st, 0)
  else
    let interval := 1 / rps
    let elapsed := now - st.lastRequestMono
    let wait := if elapsed < interval then interval - elapsed else 0
    ({ lastRequestMono := now + wait }, wait)

/- ===== services/service.py : fetch layer ===== -/

/-- The possible outcomes of one network attempt: an HTTP response with a
status and a body (empty string = empty payload), `asyncio.TimeoutError`,
or any other exception raised by the transport. -/
inductive Response where
  | http (status : Nat) (body : String)
  | timeout
  | exc (msg : String)
deriving DecidableEq, Repr

/-- The errors recorded in `last_exc` and raised by the fetch layer
(`services/service.py` lines 129, 133, 137, 143, 314, 318, 323, 327, 334). -/
inductive FetchErr where
  | httpError (status : Nat)
  | timeoutError
  | excError (msg : String)
  | emptyContent
  | allMirrorsFailed
  | cannotDownload
  | noMirror
deriving DecidableEq, Repr

/-- The body of one attempt of `fetch_url_with_penalty`
(`services/service.py` lines 118-138): on HTTP 200 decay the selected
mirror's penalty by 1 and return the text; on a non-200 status bump by 1;
on `asyncio.TimeoutError` bump by 2; on any other exception bump by 2.
`Sum.inl` is the returned text, `Sum.inr` the recorded `last_exc`. -/
def textAttempt (reg : Registry) (m : Mirror) (resp : Response) :
    Registry × (String ⊕ FetchErr) :=
  match resp with
  | .http status body =>
    if status = 200 then (decayPenalty reg m.url 1, Sum.inl body)
    else (bumpPenalty reg m.url 1, Sum.inr (.httpError status))
  | .timeout => (bumpPenalty reg m.url 2, Sum.inr .timeoutError)
  | .exc msg => (bumpPenalty reg m.url 2, Sum.inr (.excError msg))

/-- The body of one attempt of `download_book` (`services/service.py`
lines 302-328): HTTP 200 with non-empty content decays by 1 and returns
the bytes; HTTP 200 with empty content bumps by 1 (failure); a non-200
status bumps by 1; a timeout or any other exception bumps by 2. -/
def bytesAttempt (reg : Registry) (m : Mirror) (resp : Response) :
    Registry × (String ⊕ FetchErr) :=
  match resp with
  | .http status body =>
    if status = 200 then
      if body = "" then (bumpPenalty reg m.url 1, Sum.inr .emptyContent)
      else (decayPenalty reg m.url 1, Sum.inl body)
    else (bumpPenalty reg m.url 1, Sum.inr (.httpError status))
  | .timeout => (bumpPenalty reg m.url 2, Sum.inr .timeoutError)
  | .exc msg => (bumpPenalty reg m.url 2, Sum.inr (.excError msg))

/-- Result of a run of `fetch_url_with_penalty`: the final registry, the
trace of issued attempts (attempt index, selected mirror url) and either
the returned text or the raised error. -/
structure FetchRun where
  reg : Registry
  trace : List (Nat × String)
  result : Except FetchErr String
deriving Repr

instance : DecidableEq (Except FetchErr String) := fun a b =>
  match a, b with
  | .ok x, .ok y => decidable_of_iff (x = y) (by simp)
  | .error x, .error y => decidable_of_iff (x = y) (by simp)
  | .ok _, .error _ => isFalse (by simp)
  | .error _, .ok _ => isFalse (by simp)

/-- The retry loop of `fetch_url_with_penalty` (`services/service.py`
lines 112-143): `for attempt in range(1, max_retries + 1)` picks the best
mirror, issues the attempt (the response is supplied by the oracle,
indexed by attempt number), returns the text on success and otherwise
records `last_exc` and retries; when the budget is exhausted it raises
`last_exc or Exception("All mirrors failed")`.  The fuel argument is the
number of remaining attempts. -/
def fetchTextAux (oracle : Nat → Response) :
    Nat → Nat → Registry → Option FetchErr → FetchRun
  | 0, _, reg, lastExc =>
    { reg := reg, trace := [], result := .error (lastExc.getD .allMirrorsFailed) }
  | fuel+1, att, reg, _lastExc =>
    match pickBestMirror reg with
    | (reg1, none) => { reg := reg1, trace := [], result := .error .noMirror }
    | (reg1, some m) =>
      match textAttempt reg1 m (oracle att) with
      | (reg2, Sum.inl body) =>
        { reg := reg2, trace := [(att, m.url)], result := .ok body }
      | (reg2, Sum.inr e) =>
        let r := fetchTextAux oracle fuel (att+1) reg2 (some e)
        { r with trace := (att, m.url) :: r.trace }

/-- `fetch_url_with_penalty` (`services/service.py` lines 106-143) with
retry budget `max_retries` (default 3 at the call sites). -/
def fetch_url_with_penalty (oracle : Nat → Response) (reg : Registry)
    (max_retries : Nat) : FetchRun :=
  fetchTextAux oracle max_retries 1 reg none

/-- Result of a run of `download_book`: the final registry, the trace of
issued attempts (path-variant index, attempt index) and either the
returned bytes or the raised error. -/
structure DownloadRun where
  reg : Registry
  trace : List (Nat × Nat)
  result : Except FetchErr String
deriving Repr

/-- The inner retry loop of `download_book` (`services/service.py`
lines 297-331): `for attempt in range(1, max_retries + 1)` against one
path variant `p`.  The response of attempt `a` on variant `p` is
`oracle p a`.  Returns the registry, the updated `last_exc`, the trace of
attempts issued, and the content on success. -/
def downloadInner (oracle : Nat → Nat → Response) (p : Nat) :
    Nat → Nat → Registry → Option FetchErr →
    Registry × Option FetchErr × List (Nat × Nat) × Option String
  | 0, _, reg, lastExc => (reg, lastExc, [], none)
  | fuel+1, att, reg, lastExc =>
    match pickBestMirror reg with
    | (reg1, none) => (reg1, some .noMirror, [], none)
    | (reg1, some m) =>
      match bytesAttempt reg1 m (oracle p att) with
      | (reg2, Sum.inl body) => (reg2, lastExc, [(p, att)], some body)
      | (reg2, Sum.inr e) =>
        let r := downloadInner oracle p fuel (att+1) reg2 (some e)
        (r.1, r.2.1, (p, att) :: r.2.2.1, r.2.2.2)

/-- The outer loop of `download_book` (`services/service.py` line 296):
`for path in paths`, moving to the next path variant only after the inner
retry budget of the current one is exhausted without success. -/
def downloadOuter (oracle : Nat → Nat → Response) :
    List Nat → Registry → Option FetchErr →
    Registry × Option FetchErr × List (Nat × Nat) × Option String
  | [], reg, lastExc => (reg, lastExc, [], none)
  | p :: rest, reg, lastExc =>
    let r1 := downloadInner oracle p 3 1 reg lastExc
    match r1.2.2.2 with
    | some body => (r1.1, r1.2.1, r1.2.2.1, some body)
    | none =>
      let r2 := downloadOuter oracle rest r1.1 r1.2.1
      (r2.1, r2.2.1, r1.2.2.1 ++ r2.2.2.1, r2.2.2.2)

/-- `download_book` (`services/service.py` lines 288-334):
`paths = [f"/b/{book_id}/{fmt}", f"/b/{book_id}/download?format={fmt}"]`
(modelled as variant indices 0 and 1), `max_retries = 3`; when every
attempt on every variant fails it raises
`last_exc or Exception(f"Не удалось скачать ...")`. -/
def download_book (oracle : Nat → Nat → Response) (reg : Registry) : DownloadRun :=
  let r := downloadOuter oracle [0, 1] reg none
  match r.2.2.2 with
  | some body => { reg := r.1, trace := r.2.2.1, result := .ok body }
  | none => { reg := r.1, trace := r.2.2.1, result := .error (r.2.1.getD .cannotDownload) }

/-- The attempt order of `download_book`: all three attempts of path
variant 0, then all three of variant 1. -/
def lexAttempts : List (Nat × Nat) := [(0, 1), (0, 2), (0, 3), (1, 1), (1, 2), (1, 3)]

/-- An attempt of `fetch_url_with_penalty` succeeds iff the response has
status 200 (`services/service.py` line 122). -/
def isSuccessText (r : Response) : Bool :=
  match r with
  | .http s _ => s == 200
  | _ => false

/-- An attempt of `download_book` succeeds iff the response has status 200
and non-empty content (`services/service.py` lines 306-308). -/
def isSuccessBytes (r : Response) : Bool :=
  match r with
  | .http s body => s == 200 && body != ""
  | _ => false

/-- The body carried by a response. -/
def respBody : Response → String
  | .http _ b => b
  | .timeout => ""
  | .exc _ => ""

/-- The `last_exc` value that a failed `fetch_url_with_penalty` attempt
records (`services/service.py` lines 129, 133, 137). -/
def classifyText : Response → FetchErr
  | .http s _ => .httpError s
  | .timeout => .timeoutError
  | .exc t => .excError t

/-- The `last_exc` value that a failed `download_book` attempt records
(`services/service.py` lines 314, 318, 323, 327); an HTTP 200 response can
only be a failed attempt when its content is empty. -/
def classifyBytes : Response → FetchErr
  | .http s _ => if s = 200 then .emptyContent else .httpError s
  | .timeout => .timeoutError
  | .exc t => .excError t

/-- Failure predicate on attempts of `download_book`, in the form used to
describe its trace. -/
def notSuccAt (oracle : Nat → Nat → Response) (pr : Nat × Nat) : Bool :=
  !(isSuccessBytes (oracle pr.1 pr.2))

/-- The pairs `(p, att), (p, att+1), ..., (p, att+fuel-1)`. -/
def innerPairs (p att fuel : Nat) : List (Nat × Nat) :=
  (List.range' att fuel).map (fun a => (p, a))

/- ===== services/db.py : user settings store ===== -/

/-- One row of the `user_settings` table (`services/db.py` lines 11-18):
three nullable TEXT columns keyed by `user_id`. -/
structure UserSettings where
  preferred_format : Option String
  preferred_search_mode : Option String
  preferred_book_naming : Option String
deriving DecidableEq, Repr

/-- The `user_settings` table as a map from `user_id` to its row. -/
abbrev SettingsDB := Int → Option UserSettings

/-- `get_user_settings` (`services/db.py` lines 216-244): SELECT the row;
absent values are `None`. -/
def get_user_settings (db : SettingsDB) (uid : Int) : UserSettings :=
  (db uid).getD
    { preferred_format := none, preferred_search_mode := none, preferred_book_naming := none }

/-- `set_user_settings` (`services/db.py` lines 247-275): the single
statement `INSERT ... VALUES (?,?,?,?) ON CONFLICT(user_id) DO UPDATE SET
col = COALESCE(excluded.col, user_settings.col)`.  With no existing row
the supplied values are inserted as-is (all columns are listed explicitly,
so the DDL default does not apply); on conflict each column keeps its old
value exactly when the supplied value is NULL (`COALESCE`). -/
def set_user_settings (db : SettingsDB) (uid : Int)
    (preferred_format preferred_search_mode preferred_book_naming : Option String) :
    SettingsDB :=
  fun u =>
    if u = uid then
      match db uid with
      | none =>
        some { preferred_format := preferred_format,
               preferred_search_mode := preferred_search_mode,
               preferred_book_naming := preferred_book_naming }
      | some old =>
        some { preferred_format :=
                 match preferred_format with
                 | some v => some v
                 | none => old.preferred_format,
               preferred_search_mode :=
                 match preferred_search_mode with
                 | some v => some v
                 | none => old.preferred_search_mode,
               preferred_book_naming :=
                 match preferred_book_naming with
                 | some v => some v
                 | none => old.preferred_book_naming }
    else db u

/-- Modelled from the spec: the merge-on-write field policy the spec
demands of `set` — a supplied field overwrites, an unsupplied field keeps
the previously stored value.  Stated separately from `set_user_settings`
so that the code's `COALESCE` upsert can be compared against it. -/
def mergeField (new old : Option String) : Option String :=
  match new with
  | some v => some v
  | none => old

/-- One call to `set_user_settings`. -/
structure SetOp where
  uid : Int
  pf : Option String
  psm : Option String
  pbn : Option String

/-- A sequence of `set_user_settings` calls. -/
def applySets (db : SettingsDB) (ops : List SetOp) : SettingsDB :=
  ops.foldl (fun d op => set_user_settings d op.uid op.pf op.psm op.pbn) db

/- ===== legacy db.py : old settings store ===== -/

/-- One row of the legacy `user_settings` table (`db.py` lines 4-10):
two nullable TEXT columns. -/
structure LegacySettings where
  preferred_format : Option String
  preferred_search_mode : Option String
deriving DecidableEq, Repr

/-- The legacy table as a map from `user_id` to its row. -/
abbrev LegacyDB := Int → Option LegacySettings

/-- Legacy `get_user_settings` (`db.py` lines 18-42). -/
def legacy_get_user_settings (db : LegacyDB) (uid : Int) : LegacySettings :=
  (db uid).getD { preferred_format := none, preferred_search_mode := none }

/-- Python's `new or old` on `Optional[str]`: `new` when it is truthy
(a non-`None`, non-empty string), else `old`. -/
def pyOr (new old : Option String) : Option String :=
  match new with
  | some s => if s = "" then old else some s
  | none => old

/-- Legacy `set_user_settings` (`db.py` lines 44-61): first SELECTs the
current row, merges with `preferred_format or current[...]`, then runs an
upsert whose DO UPDATE overwrites both columns with the merged values. -/
def legacy_set_user_settings (db : LegacyDB) (uid : Int)
    (preferred_format preferred_search_mode : Option String) : LegacyDB :=
  let current := legacy_get_user_settings db uid
  let pfmt := pyOr preferred_format current.preferred_format
  let pmode := pyOr preferred_search_mode current.preferred_search_mode
  fun u =>
    if u = uid then some { preferred_format := pfmt, preferred_search_mode := pmode }
    else db u

/-- One call to the legacy `set_user_settings`. -/
structure LegacySetOp where
  uid : Int
  pf : Option String
  psm : Option String

/-- A sequence of legacy `set_user_settings` calls. -/
def legacyApplySets (db : LegacyDB) (ops : List LegacySetOp) : LegacyDB :=
  ops.foldl (fun d op => legacy_set_user_settings d op.uid op.pf op.psm) db

/- ===== services/db.py : DBPool =====

`DBPool` runs on asyncio's single-threaded cooperative scheduler: tasks
interleave only at `await` points.  The shared pool state and the
per-task progress through `get()` / `put()` are modelled as a small-step
machine whose atomic steps are the synchronous stretches of the Python
code between `await`s.  (Consecutive awaits that the model merges into
one step only *remove* interleavings, so every behaviour of the model is
a behaviour of the code under some legal schedule.)  Connections are
identified by creation order; their liveness (`_health_check`) is a fixed
oracle `health : Nat → Bool`. -/

/-- The shared state of a `DBPool` (`services/db.py` lines 33-48):
`_pool` is the FIFO `asyncio.Queue`, `current_connections` the live
counter, `max_pool_size` the configured bound.  `next_conn` numbers the
connections created so far. -/
structure PoolState where
  queue : List Nat
  current_connections : Int
  next_conn : Nat
  max_pool_size : Nat
deriving DecidableEq, Repr

/-- A task's program counter through `DBPool.get` / `DBPool.put`:

* `getStart`: about to evaluate the guard
  `self._pool.empty() and self.current_connections < self.max_pool_size`
  (`get`, line 100);
* `getCreating`: suspended inside `await self._create_connection()` of the
  guard's branch (line 102); on resumption runs
  `self.current_connections += 1; return conn` (lines 103-105);
* `getWaiting`: waiting in `await asyncio.wait_for(self._pool.get(), ...)`
  (line 111);
* `getChecking c`: holding `c` from the queue, inside
  `await self._health_check(conn)` (line 116);
* `getReplacing`: the health check failed, the connection was closed and
  the counter decremented (lines 117-121), the replacement test
  `self.current_connections < self.max_pool_size` passed (line 124) and
  the task is suspended in `await self._create_connection()` (line 125);
  on resumption runs `self.current_connections += 1; return new_conn`;
* `getWaiting2`: the replacement test failed; waiting in the second
  `await asyncio.wait_for(self._pool.get(), ...)` (line 130), whose result
  is returned without a further health check (line 132);
* `putProbing c`: inside `DBPool.put`'s `await self._health_check(conn)`
  (line 139); on resumption either returns `c` to the queue (line 148) or
  closes it and decrements the counter (lines 140-146);
* `finished r`: the call returned (`r` = the connection obtained from
  `get`, or `none` for a completed `put`). -/
inductive TaskPC where
  | getStart
  | getCreating
  | getWaiting
  | getChecking (c : Nat)
  | getReplacing
  | getWaiting2
  | putProbing (c : Nat)
  | finished (r : Option Nat)
deriving DecidableEq, Repr

/-- One atomic step of the task whose program counter is `pc`; a blocked
task (empty queue, full queue) stays in place. -/
def stepTask (health : Nat → Bool) (ps : PoolState) (pc : TaskPC) : PoolState × TaskPC :=
  match pc with
  | .getStart =>
    if ps.queue.isEmpty ∧ ps.current_connections < (ps.max_pool_size : Int) then
      (ps, .getCreating)
    else (ps, .getWaiting)
  | .getCreating =>
    ({ ps with current_connections := ps.current_connections + 1,
               next_conn := ps.next_conn + 1 },
     .finished (some ps.next_conn))
  | .getWaiting =>
    match ps.queue with
    | [] => (ps, .getWaiting)
    | c :: rest => ({ ps with queue := rest }, .getChecking c)
  | .getChecking c =>
    if health c then (ps, .finished (some c))
    else
      let ps1 := { ps with current_connections := ps.current_connections - 1 }
      if ps1.current_connections < (ps1.max_pool_size : Int) then (ps1, .getReplacing)
      else (ps1, .getWaiting2)
  | .getReplacing =>
    ({ ps with current_connections := ps.current_connections + 1,
               next_conn := ps.next_conn + 1 },
     .finished (some ps.next_conn))
  | .getWaiting2 =>
    match ps.queue with
    | [] => (ps, .getWaiting2)
    | c :: rest => ({ ps with queue := rest }, .finished (some c))
  | .putProbing c =>
    if health c then
      if ps.queue.length < ps.max_pool_size then
        ({ ps with queue := ps.queue ++ [c] }, .finished none)
      else (ps, .putProbing c)
    else
      ({ ps with current_connections := ps.current_connections - 1 }, .finished none)
  | .finished r => (ps, .finished r)

/-- The whole system: the shared pool plus the interleaved tasks. -/
structure SysState where
  pool : PoolState
  tasks : List TaskPC
deriving DecidableEq, Repr

/-- Run one atomic step of task `i` (no-op for an invalid index). -/
def stepSys (health : Nat → Bool) (st : SysState) (i : Nat) : SysState :=
  match st.tasks[i]? with
  | none => st
  | some pc =>
    let r := stepTask health st.pool pc
    { pool := r.1, tasks := st.tasks.set i r.2 }

/-- Run a schedule: a list of task indices, each performing one atomic step. -/
def runSched (health : Nat → Bool) (st : SysState) (sched : List Nat) : SysState :=
  sched.foldl (stepSys health) st

/-- The pool state after `init_pool` (`services/db.py` lines 71-83) has
completed under its lock: `min_size` connections created and queued, the
counter equal to `min_size`. -/
def initPoolState (min_size max_size : Nat) : PoolState :=
  { queue := List.range min_size,
    current_connections := (min_size : Int),
    next_conn := min_size,
    max_pool_size := max_size }

/- ===== concrete scenario constants used by witnesses and counterexamples ===== -/

/-- Health oracle for the pool scenario: connection 1 (the second one
created by `init_pool`) has gone stale; every other connection is live. -/
def healthScenario (c : Nat) : Bool := c != 1

/-- The interleaving that drives `current_connections` over
`max_pool_size`: three tasks T0, T1, T2 all call `get()` on the pool
`DBPool(DB_PATH, min_pool_size=2, max_pool_size=2, ...)` of
`services/db.py` line 193, after warm-up and with connection 1 stale.
T0 checks out the healthy connection 0.  T1 checks out connection 1,
discards it on the failed health check (counter 2 → 1) and suspends in
`await self._create_connection()` of the replacement branch.  T2 now sees
an empty queue and `current_connections = 1 < 2 = max_pool_size` and
suspends in `await self._create_connection()` of the first branch.  Both
creations then complete and both tasks increment: the counter reaches 3. -/
def poolRaceStart : SysState :=
  { pool := initPoolState 2 2, tasks := [.getStart, .getStart, .getStart] }

/-- The schedule of the race described at `poolRaceStart`. -/
def poolRaceSched : List Nat := [0, 0, 0, 1, 1, 1, 2, 1, 2]

/-- Oracle of the claimed `fetchBytes` scenario: every attempt on path
variant 0 answers HTTP 200 with empty content, every attempt on variant 1
answers HTTP 200 with the payload. -/
def bytesScenarioOracle (p : Nat) (_att : Nat) : Response :=
  if p = 0 then .http 200 "" else .http 200 "payload"

/-- A settings table holding one fully populated row for user 7. -/
def settingsScenarioDB : SettingsDB :=
  fun u => if u = 7 then
    some { preferred_format := some "fb2",
           preferred_search_mode := some "book",
           preferred_book_naming := some "title_author" }
  else none

/-- A partial-update sequence against `settingsScenarioDB`. -/
def settingsScenarioOps : List SetOp :=
  [{ uid := 7, pf := none, psm := some "author", pbn := none },
   { uid := 7, pf := some "epub", psm := none, pbn := none }]

/-- A legacy settings table holding one fully populated row for user 7. -/
def legacyScenarioDB : LegacyDB :=
  fun u => if u = 7 then
    some { preferred_format := some "fb2", preferred_search_mode := some "book" }
  else none

/-- A legacy update sequence, including falsy (empty-string) arguments. -/
def legacyScenarioOps : List LegacySetOp :=
  [{ uid := 7, pf := some "", psm := none },
   { uid := 7, pf := none, psm := some "author" }]

/-- An empty settings table. -/
def emptySettingsDB : SettingsDB := fun _ => none

/- ===== helper lemmas ===== -/

theorem orderedInsert_head_penalty (m b : Mirror) (t : List Mirror) :
    (List.orderedInsert penaltyLE m (b :: t)).head?
      = some (if b.penalty < m.penalty then b else m) := by
  by_cases h : penaltyLE m b
  · rw [List.orderedInsert, if_pos h, if_neg (not_lt.2 h)]
    rfl
  · rw [List.orderedInsert, if_neg h, if_pos (not_le.1 h)]
    rfl

theorem sortByPenalty_head_eq_firstMin : ∀ reg : Registry,
    (sortByPenalty reg).head? = firstMin reg
  | [] => rfl
  | m :: rest => by
    have ih := sortByPenalty_head_eq_firstMin rest
    show (List.orderedInsert penaltyLE m (sortByPenalty rest)).head? = firstMin (m :: rest)
    cases hs : sortByPenalty rest with
    | nil =>
      have h0 : firstMin rest = none := by rw [← ih, hs]; rfl
      simp [List.orderedInsert, firstMin, h0]
    | cons b t =>
      have hb : firstMin rest = some b := by rw [← ih, hs]; rfl
      rw [orderedInsert_head_penalty]
      simp [firstMin, hb, apply_ite some]

theorem firstMin_eq_none : ∀ {reg : Registry}, firstMin reg = none → reg = []
  | [], _ => rfl
  | _ :: rest, h => by
    cases hr : firstMin rest <;> simp [firstMin, hr] at h
    split at h <;> simp at h

theorem firstMin_penalty_le : ∀ (reg : Registry) (b : Mirror), firstMin reg = some b →
    ∀ m ∈ reg, b.penalty ≤ m.penalty
  | [], b, h => by simp [firstMin] at h
  | x :: rest, b, h => by
    intro m hm
    cases hr : firstMin rest with
    | none =>
      have hrest := firstMin_eq_none hr
      subst hrest
      simp [firstMin, hr] at h hm
      subst h; subst hm; exact le_refl _
    | some c =>
      have ih := firstMin_penalty_le rest c hr
      simp only [firstMin, hr] at h
      rcases List.mem_cons.1 hm with rfl | hm'
      · by_cases hcx : c.penalty < m.penalty
        · rw [if_pos hcx] at h
          obtain rfl : c = b := Option.some_inj.mp h
          exact le_of_lt hcx
        · rw [if_neg hcx] at h
          obtain rfl : m = b := Option.some_inj.mp h
          exact le_refl _
      · by_cases hcx : c.penalty < x.penalty
        · rw [if_pos hcx] at h
          obtain rfl : c = b := Option.some_inj.mp h
          exact ih m hm'
        · rw [if_neg hcx] at h
          obtain rfl : x = b := Option.some_inj.mp h
          exact le_trans (not_lt.1 hcx) (ih m hm')

theorem sortByPenalty_ne_nil {reg : Registry} (h : reg ≠ []) : sortByPenalty reg ≠ [] := by
  intro hc
  apply h
  have hl := List.length_insertionSort penaltyLE reg
  rw [sortByPenalty] at hc
  rw [hc] at hl
  exact List.length_eq_zero.1 hl.symm

theorem bumpPenalty_ne_nil (u : String) (d : Int) {reg : Registry} (h : reg ≠ []) :
    bumpPenalty reg u d ≠ [] := by
  simpa [bumpPenalty] using h

theorem pickBestMirror_some {reg : Registry} (h : reg ≠ []) :
    ∃ m, pickBestMirror reg = (sortByPenalty reg, some m) := by
  cases hs : sortByPenalty reg with
  | nil => exact absurd hs (sortByPenalty_ne_nil h)
  | cons m t => exact ⟨m, by simp [pickBestMirror, hs]⟩

theorem textAttempt_succ (reg : Registry) (m : Mirror) (r : Response)
    (h : isSuccessText r = true) :
    textAttempt reg m r = (decayPenalty reg m.url 1, Sum.inl (respBody r)) := by
  cases r with
  | http s b =>
    have hs : s = 200 := by simpa [isSuccessText] using h
    simp [textAttempt, respBody, hs]
  | timeout => simp [isSuccessText] at h
  | exc t => simp [isSuccessText] at h

theorem textAttempt_fail (reg : Registry) (m : Mirror) (r : Response)
    (h : isSuccessText r = false) :
    ∃ w, textAttempt reg m r = (bumpPenalty reg m.url w, Sum.inr (classifyText r)) := by
  cases r with
  | http s b =>
    have hs : s ≠ 200 := by simpa [isSuccessText] using h
    exact ⟨1, by simp [textAttempt, classifyText, hs]⟩
  | timeout => exact ⟨2, rfl⟩
  | exc t => exact ⟨2, rfl⟩

theorem bytesAttempt_succ (reg : Registry) (m : Mirror) (r : Response)
    (h : isSuccessBytes r = true) :
    bytesAttempt reg m r = (decayPenalty reg m.url 1, Sum.inl (respBody r)) := by
  cases r with
  | http s b =>
    have hs : s = 200 ∧ b ≠ "" := by simpa [isSuccessBytes] using h
    simp [bytesAttempt, respBody, hs.1, hs.2]
  | timeout => simp [isSuccessBytes] at h
  | exc t => simp [isSuccessBytes] at h

theorem bytesAttempt_fail (reg : Registry) (m : Mirror) (r : Response)
    (h : isSuccessBytes r = false) :
    ∃ w, bytesAttempt reg m r = (bumpPenalty reg m.url w, Sum.inr (classifyBytes r)) := by
  cases r with
  | http s b =>
    by_cases hs : s = 200
    · have hb : b = "" := by simpa [isSuccessBytes, hs] using h
      exact ⟨1, by simp [bytesAttempt, classifyBytes, hs, hb]⟩
    · exact ⟨1, by simp [bytesAttempt, classifyBytes, hs]⟩
  | timeout => exact ⟨2, rfl⟩
  | exc t => exact ⟨2, rfl⟩

theorem innerPairs_succ (p att n : Nat) :
    innerPairs p att (n+1) = (p, att) :: innerPairs p (att+1) n := by
  simp [innerPairs, List.range'_succ]

theorem downloadInner_fail_step (oracle : Nat → Nat → Response) (p fuel att : Nat)
    (reg reg2 : Registry) (le : Option FetchErr) (m : Mirror) (e : FetchErr)
    (hm : pickBestMirror reg = (sortByPenalty reg, some m))
    (hw : bytesAttempt (sortByPenalty reg) m (oracle p att) = (reg2, Sum.inr e)) :
    downloadInner oracle p (fuel+1) att reg le
      = ((downloadInner oracle p fuel (att+1) reg2 (some e)).1,
         (downloadInner oracle p fuel (att+1) reg2 (some e)).2.1,
         (p, att) :: (downloadInner oracle p fuel (att+1) reg2 (some e)).2.2.1,
         (downloadInner oracle p fuel (att+1) reg2 (some e)).2.2.2) := by
  simp only [downloadInner, hm, hw]

theorem downloadInner_succ_step (oracle : Nat → Nat → Response) (p fuel att : Nat)
    (reg reg2 : Registry) (le : Option FetchErr) (m : Mirror) (body : String)
    (hm : pickBestMirror reg = (sortByPenalty reg, some m))
    (hw : bytesAttempt (sortByPenalty reg) m (oracle p att) = (reg2, Sum.inl body)) :
    downloadInner oracle p (fuel+1) att reg le = (reg2, le, [(p, att)], some body) := by
  simp only [downloadInner, hm, hw]

theorem fetchTextAux_fail_step (oracle : Nat → Response) (fuel att : Nat)
    (reg reg2 : Registry) (le : Option FetchErr) (m : Mirror) (e : FetchErr)
    (hm : pickBestMirror reg = (sortByPenalty reg, some m))
    (hw : textAttempt (sortByPenalty reg) m (oracle att) = (reg2, Sum.inr e)) :
    fetchTextAux oracle (fuel+1) att reg le
      = { reg := (fetchTextAux oracle fuel (att+1) reg2 (some e)).reg,
          trace := (att, m.url) :: (fetchTextAux oracle fuel (att+1) reg2 (some e)).trace,
          result := (fetchTextAux oracle fuel (att+1) reg2 (some e)).result } := by
  simp only [fetchTextAux, hm, hw]

theorem downloadInner_all_fail (oracle : Nat → Nat → Response) (p : Nat) :
    ∀ (fuel att : Nat) (reg : Registry) (le : Option FetchErr), reg ≠ [] →
    (∀ i, i ≤ fuel → isSuccessBytes (oracle p (att + i)) = false) →
    ∃ reg', downloadInner oracle p (fuel+1) att reg le
        = (reg', some (classifyBytes (oracle p (att + fuel))), innerPairs p att (fuel+1), none)
      ∧ reg' ≠ [] := by
  intro fuel
  induction fuel with
  | zero =>
    intro att reg le hreg hfail
    obtain ⟨m, hm⟩ := pickBestMirror_some hreg
    obtain ⟨w, hw⟩ := bytesAttempt_fail (sortByPenalty reg) m (oracle p att)
      (by simpa using hfail 0 (le_refl 0))
    refine ⟨bumpPenalty (sortByPenalty reg) m.url w,
      ?_, bumpPenalty_ne_nil _ _ (sortByPenalty_ne_nil hreg)⟩
    rw [downloadInner_fail_step oracle p 0 att reg (bumpPenalty (sortByPenalty reg) m.url w)
      le m (classifyBytes (oracle p att)) hm hw]
    simp [downloadInner, innerPairs]
  | succ f ih =>
    intro att reg le hreg hfail
    obtain ⟨m, hm⟩ := pickBestMirror_some hreg
    obtain ⟨w, hw⟩ := bytesAttempt_fail (sortByPenalty reg) m (oracle p att)
      (by simpa using hfail 0 (Nat.zero_le _))
    have hreg2 : bumpPenalty (sortByPenalty reg) m.url w ≠ [] :=
      bumpPenalty_ne_nil _ _ (sortByPenalty_ne_nil hreg)
    obtain ⟨reg', hrec, hreg'⟩ := ih (att+1) (bumpPenalty (sortByPenalty reg) m.url w)
      (some (classifyBytes (oracle p att))) hreg2
      (fun i hi => by
        have hx := hfail (i+1) (Nat.succ_le_succ hi)
        have harith : att + (i + 1) = att + 1 + i := by omega
        rwa [harith] at hx)
    refine ⟨reg', ?_, hreg'⟩
    rw [downloadInner_fail_step oracle p (f+1) att reg (bumpPenalty (sortByPenalty reg) m.url w)
      le m (classifyBytes (oracle p att)) hm hw]
    have harith : att + 1 + f = att + (f + 1) := by omega
    simp [hrec, harith, innerPairs_succ]

theorem downloadInner_first_success (oracle : Nat → Nat → Response) (p : Nat) :
    ∀ (j fuel att : Nat) (reg : Registry) (le : Option FetchErr), reg ≠ [] → j < fuel →
    (∀ i, i < j → isSuccessBytes (oracle p (att + i)) = false) →
    isSuccessBytes (oracle p (att + j)) = true →
    ∃ reg' le', downloadInner oracle p fuel att reg le
        = (reg', le', innerPairs p att (j+1), some (respBody (oracle p (att + j)))) := by
  intro j
  induction j with
  | zero =>
    intro fuel att reg le hreg hj _hprev hsucc
    obtain ⟨f, rfl⟩ : ∃ f, fuel = f + 1 := ⟨fuel - 1, by omega⟩
    obtain ⟨m, hm⟩ := pickBestMirror_some hreg
    have hs := bytesAttempt_succ (sortByPenalty reg) m (oracle p att) (by simpa using hsucc)
    refine ⟨decayPenalty (sortByPenalty reg) m.url 1, le, ?_⟩
    rw [downloadInner_succ_step oracle p f att reg (decayPenalty (sortByPenalty reg) m.url 1)
      le m (respBody (oracle p att)) hm hs]
    simp [innerPairs]
  | succ jj ih =>
    intro fuel att reg le hreg hj hprev hsucc
    obtain ⟨f, rfl⟩ : ∃ f, fuel = f + 1 := ⟨fuel - 1, by omega⟩
    obtain ⟨m, hm⟩ := pickBestMirror_some hreg
    obtain ⟨w, hw⟩ := bytesAttempt_fail (sortByPenalty reg) m (oracle p att)
      (by simpa using hprev 0 (Nat.succ_pos _))
    have hreg2 : bumpPenalty (sortByPenalty reg) m.url w ≠ [] :=
      bumpPenalty_ne_nil _ _ (sortByPenalty_ne_nil hreg)
    have hprev2 : ∀ i, i < jj → isSuccessBytes (oracle p (att + 1 + i)) = false := by
      intro i hi
      have hx := hprev (i+1) (Nat.succ_lt_succ hi)
      have harith : att + (i + 1) = att + 1 + i := by omega
      rwa [harith] at hx
    have hsucc2 : isSuccessBytes (oracle p (att + 1 + jj)) = true := by
      have harith : att + (jj + 1) = att + 1 + jj := by omega
      rwa [harith] at hsucc
    obtain ⟨reg', le', hrec⟩ := ih f (att+1) (bumpPenalty (sortByPenalty reg) m.url w)
      (some (classifyBytes (oracle p att))) hreg2 (by omega) hprev2 hsucc2
    refine ⟨reg', le', ?_⟩
    have harith : att + 1 + jj = att + (jj + 1) := by omega
    rw [harith] at hrec
    rw [downloadInner_fail_step oracle p f att reg (bumpPenalty (sortByPenalty reg) m.url w)
      le m (classifyBytes (oracle p att)) hm hw]
    simp [hrec, innerPairs_succ]

theorem fetchTextAux_all_fail (oracle : Nat → Response) :
    ∀ (fuel att : Nat) (reg : Registry) (le : Option FetchErr), reg ≠ [] →
    (∀ i, i ≤ fuel → isSuccessText (oracle (att + i)) = false) →
    (fetchTextAux oracle (fuel+1) att reg le).result
        = .error (classifyText (oracle (att + fuel)))
    ∧ (fetchTextAux oracle (fuel+1) att reg le).trace.map Prod.fst
        = List.range' att (fuel+1) := by
  intro fuel
  induction fuel with
  | zero =>
    intro att reg le hreg hfail
    obtain ⟨m, hm⟩ := pickBestMirror_some hreg
    obtain ⟨w, hw⟩ := textAttempt_fail (sortByPenalty reg) m (oracle att)
      (by simpa using hfail 0 (le_refl 0))
    rw [fetchTextAux_fail_step oracle 0 att reg (bumpPenalty (sortByPenalty reg) m.url w)
      le m (classifyText (oracle att)) hm hw]
    constructor <;> simp [fetchTextAux, List.range'_succ]
  | succ f ih =>
    intro att reg le hreg hfail
    obtain ⟨m, hm⟩ := pickBestMirror_some hreg
    obtain ⟨w, hw⟩ := textAttempt_fail (sortByPenalty reg) m (oracle att)
      (by simpa using hfail 0 (Nat.zero_le _))
    have hreg2 : bumpPenalty (sortByPenalty reg) m.url w ≠ [] :=
      bumpPenalty_ne_nil _ _ (sortByPenalty_ne_nil hreg)
    have hrec := ih (att+1) (bumpPenalty (sortByPenalty reg) m.url w)
      (some (classifyText (oracle att))) hreg2
      (fun i hi => by
        have hx := hfail (i+1) (Nat.succ_le_succ hi)
        have harith : att + (i + 1) = att + 1 + i := by omega
        rwa [harith] at hx)
    have harith : att + 1 + f = att + (f + 1) := by omega
    rw [harith] at hrec
    rw [fetchTextAux_fail_step oracle (f+1) att reg (bumpPenalty (sortByPenalty reg) m.url w)
      le m (classifyText (oracle att)) hm hw]
    constructor <;> simp [hrec.1, hrec.2, List.range'_succ]

theorem nonNeg_applyRegOp (reg : Registry) (op : RegOp) (h : nonNegReg reg = true) :
    nonNegReg (applyRegOp reg op) = true := by
  rw [nonNegReg, List.all_eq_true] at h ⊢
  cases op with
  | pick =>
    intro m hm
    exact h m ((List.mem_insertionSort penaltyLE).1 hm)
  | success u =>
    intro m hm
    rcases List.mem_map.1 hm with ⟨x, hx, rfl⟩
    have := of_decide_eq_true (h x hx)
    by_cases hu : x.url == u <;> simp [hu] <;> omega
  | failure u b =>
    intro m hm
    rcases List.mem_map.1 hm with ⟨x, hx, rfl⟩
    have := of_decide_eq_true (h x hx)
    by_cases hu : x.url == u <;> cases b <;> simp [hu] <;> omega

theorem nonNeg_applyRegOps (reg : Registry) (ops : List RegOp) (h : nonNegReg reg = true) :
    nonNegReg (applyRegOps reg ops) = true := by
  induction ops generalizing reg with
  | nil => exact h
  | cons op rest ih => exact ih _ (nonNeg_applyRegOp reg op h)

theorem penaltyOf_bump : ∀ (reg : Registry) (u : String) (d : Int),
    penaltyOf (bumpPenalty reg u d) u = (penaltyOf reg u).map (fun p => p + d)
  | [], _, _ => rfl
  | x :: reg, u, d => by
    by_cases hu : x.url == u
    · simp [penaltyOf, bumpPenalty, List.find?, hu]
    · have ih := penaltyOf_bump reg u d
      simp only [penaltyOf, bumpPenalty, List.map] at ih ⊢
      rw [if_neg hu]
      simp only [List.find?, hu]
      exact ih

/- ===== claim theorems ===== -/

/-- C1, counterexample to the claim as stated: starting from the
configured registry, a timeout on the first attempt (penalty of
`flibusta.is` +2, the weight `fetch_url_with_penalty` uses for timeouts)
followed by a timeout on the second attempt (penalty of `flibusta.site`
+2) leaves both mirrors with equal penalty 2 — yet `_pick_best_mirror`
returns `flibusta.site`, not the mirror listed first in
`FLIBUSTA_MIRRORS` (`flibusta.is`): the in-place `mirror_state.sort`
of the second call moved `flibusta.site` ahead, and the stable sort
preserves that *current* order on ties, not the startup order.  The last
conjunct re-checks the same outcome inside an actual
`fetch_url_with_penalty` run whose three attempts all time out: the third
attempt selects `flibusta.site` despite the tie. -/
theorem pickBest_config_order_tie_refuted :
    (penaltyOf (bumpPenalty (pickBestMirror (bumpPenalty (pickBestMirror mirror_state).1
        "https://flibusta.is" 2)).1 "https://flibusta.site" 2) "https://flibusta.is" = some 2)
    ∧ (penaltyOf (bumpPenalty (pickBestMirror (bumpPenalty (pickBestMirror mirror_state).1
        "https://flibusta.is" 2)).1 "https://flibusta.site" 2) "https://flibusta.site" = some 2)
    ∧ FLIBUSTA_MIRRORS.head? = some "https://flibusta.is"
    ∧ ((pickBestMirror (bumpPenalty (pickBestMirror (bumpPenalty (pickBestMirror mirror_state).1
        "https://flibusta.is" 2)).1 "https://flibusta.site" 2)).2.map Mirror.url
        = some "https://flibusta.site")
    ∧ (fetch_url_with_penalty (fun _ => Response.timeout) mirror_state 3).trace
        = [(1, "https://flibusta.is"), (2, "https://flibusta.site"), (3, "https://flibusta.site")] := by
  decide

/-- C1, amended: `_pick_best_mirror` returns the mirror with the lowest
current penalty; ties are broken by the mirror's position in the
*current* registry list (which earlier in-place sorts may have changed
from the original `FLIBUSTA_MIRRORS` order), and repeated calls with
unchanged scores deterministically return the same mirror.  Stated as:
the picked mirror is exactly the first list element attaining the
minimal penalty; picking again right away returns the same mirror; and
the picked mirror's penalty is a lower bound of every penalty in the
registry. -/
theorem pickBest_lowest_penalty_current_order (reg : Registry) :
    (pickBestMirror reg).2 = firstMin reg
    ∧ (pickBestMirror (pickBestMirror reg).1).2 = (pickBestMirror reg).2
    ∧ ((pickBestMirror reg).2.all fun b => reg.all fun m => decide (b.penalty ≤ m.penalty))
        = true := by
  refine ⟨sortByPenalty_head_eq_firstMin reg, ?_, ?_⟩
  · show (sortByPenalty (sortByPenalty reg)).head? = (sortByPenalty reg).head?
    rw [sortByPenalty, sortByPenalty, (List.sorted_insertionSort penaltyLE reg).insertionSort_eq]
  · cases hb : (pickBestMirror reg).2 with
    | none => rfl
    | some b =>
      have hb' : firstMin reg = some b := by
        rw [← sortByPenalty_head_eq_firstMin]; exact hb
      simp only [Option.all_some]
      rw [List.all_eq_true]
      intro m hm
      exact decide_eq_true (firstMin_penalty_le reg b hb' m hm)

/-- C2: starting from the startup registry (every penalty 0), any
sequence of registry operations — `_pick_best_mirror`'s in-place sort,
`_decay_penalty mirror 1` for a reported success, `_bump_penalty mirror w`
for a reported failure (`w = 2` for timeout/exception, else `1`) — leaves
every mirror's penalty a non-negative integer.  Since the operation
sequence is universally quantified, the bound holds at every intermediate
point of any longer sequence as well. -/
theorem penalty_floor_invariant (ops : List RegOp) :
    nonNegReg (applyRegOps mirror_state ops) = true :=
  nonNeg_applyRegOps mirror_state ops (by decide)

/-- C3: in one attempt of the text fetch (`fetch_url_with_penalty`) and of
the bytes fetch (`download_book`), the selected mirror's penalty grows by
exactly 1 on a non-200 response — and, in the bytes variant, on a 200
response with empty content — and by exactly 2 on a timeout or any other
transport exception; the timeout/exception weight 2 is strictly larger
than the HTTP-error weight 1 (final conjunct). -/
theorem attempt_failure_weights (reg : Registry) (u : String) (p : Int) (m : Mirror)
    (s : Nat) (b t : String) (hm : m.url = u) (hp : penaltyOf reg u = some p)
    (hs : s ≠ 200) :
    penaltyOf (textAttempt reg m (.http s b)).1 u = some (p + 1)
    ∧ penaltyOf (textAttempt reg m .timeout).1 u = some (p + 2)
    ∧ penaltyOf (textAttempt reg m (.exc t)).1 u = some (p + 2)
    ∧ penaltyOf (bytesAttempt reg m (.http s b)).1 u = some (p + 1)
    ∧ penaltyOf (bytesAttempt reg m (.http 200 "")).1 u = some (p + 1)
    ∧ penaltyOf (bytesAttempt reg m .timeout).1 u = some (p + 2)
    ∧ penaltyOf (bytesAttempt reg m (.exc t)).1 u = some (p + 2)
    ∧ (1 : Int) < 2 := by
  subst hm
  refine ⟨?_, ?_, ?_, ?_, ?_, ?_, ?_, by norm_num⟩ <;>
    simp [textAttempt, bytesAttempt, hs, penaltyOf_bump, hp]

/-- Witness for `attempt_failure_weights` at the configured registry,
mirror `flibusta.is` (penalty 0), HTTP status 500 and exception "boom". -/
theorem attempt_failure_weights_witness :
    penaltyOf mirror_state "https://flibusta.is" = some 0
    ∧ (500 : Nat) ≠ 200
    ∧ (penaltyOf (textAttempt mirror_state { url := "https://flibusta.is", penalty := 0 }
         (.http 500 "")).1 "https://flibusta.is" = some 1
       ∧ penaltyOf (textAttempt mirror_state { url := "https://flibusta.is", penalty := 0 }
         .timeout).1 "https://flibusta.is" = some 2) := by
  have h := attempt_failure_weights mirror_state "https://flibusta.is" 0
    { url := "https://flibusta.is", penalty := 0 } 500 "" "boom" rfl (by decide) (by decide)
  exact ⟨by decide, by decide, by simpa using h.1, by simpa using h.2.1⟩

/-- C8: when the configured requests-per-second value is non-positive,
`rate_limit` returns immediately: the gate state is untouched, no time is
slept, and no error is raised (in particular `1.0 / RATE_LIMIT_RPS` is
never computed, so a zero rate cannot divide by zero). -/
theorem rate_limit_noop (rps now : ℚ) (st : RateState) (h : rps ≤ 0) :
    rate_limit rps now st = (st, 0) := by
  simp [rate_limit, h]

/-- Witness for `rate_limit_noop` at rate 0 (and the state untouched). -/
theorem rate_limit_noop_witness :
    (0 : ℚ) ≤ 0
    ∧ rate_limit 0 5 { lastRequestMono := 2 } = ({ lastRequestMono := 2 }, 0) :=
  ⟨le_refl 0, rate_limit_noop 0 5 { lastRequestMono := 2 } (le_refl 0)⟩

/-- C5 (refuting the claimed invariant, as a bug in the code): on the
production pool `DBPool(..., min_pool_size=2, max_pool_size=2, ...)`
(`services/db.py` line 193), warmed up and with one stale pooled
connection, the interleaving `poolRaceSched` of three concurrent
`DBPool.get()` calls drives `current_connections` to 3 — above
`max_pool_size = 2`.  The race is the suspension inside
`await self._create_connection()` between the capacity test
(`self.current_connections < self.max_pool_size`, lines 100 and 124) and
the increment `self.current_connections += 1` (lines 103 and 126): two
tasks pass their capacity tests while the counter is still 1, then both
increment.  This contradicts the class's own docstring ("При нехватке —
создаёт новые до max_pool_size", i.e. new connections are created only up
to `max_pool_size`). -/
theorem dbpool_exceeds_max_pool_size :
    (runSched healthScenario poolRaceStart poolRaceSched).pool.max_pool_size = 2
    ∧ (runSched healthScenario poolRaceStart poolRaceSched).pool.current_connections = 3
    ∧ ¬ ((runSched healthScenario poolRaceStart poolRaceSched).pool.current_connections
          ≤ ((runSched healthScenario poolRaceStart poolRaceSched).pool.max_pool_size : Int)) := by
  decide

/-- C9: `DBPool.put` re-probes the connection's liveness.  A connection
that fails the probe is not returned to the pool — the queue is unchanged
and does not contain it — and `current_connections` decreases by exactly
one; a connection that passes the probe is appended to the queue and the
counter is unchanged. -/
theorem dbpool_put_health_gate (health : Nat → Bool) (ps : PoolState) (c : Nat)
    (hq : ps.queue.length < ps.max_pool_size) (hc : c ∉ ps.queue) :
    (health c = false →
      stepTask health ps (.putProbing c)
        = ({ ps with current_connections := ps.current_connections - 1 }, .finished none)
      ∧ c ∉ (stepTask health ps (.putProbing c)).1.queue)
    ∧ (health c = true →
      stepTask health ps (.putProbing c)
        = ({ ps with queue := ps.queue ++ [c] }, .finished none)
      ∧ (stepTask health ps (.putProbing c)).1.current_connections
          = ps.current_connections) := by
  constructor
  · intro hdead
    constructor
    · simp [stepTask, hdead]
    · simpa [stepTask, hdead] using hc
  · intro halive
    constructor
    · simp [stepTask, halive, hq]
    · simp [stepTask, halive, hq]

/-- Witness for `dbpool_put_health_gate`: the warmed-up one-connection
pool (`initPoolState 1 2`), returning the stale connection 1. -/
theorem dbpool_put_health_gate_witness :
    (initPoolState 1 2).queue.length < (initPoolState 1 2).max_pool_size
    ∧ (1 : Nat) ∉ (initPoolState 1 2).queue
    ∧ stepTask healthScenario (initPoolState 1 2) (.putProbing 1)
        = ({ initPoolState 1 2 with
              current_connections := (initPoolState 1 2).current_connections - 1 },
           .finished none) := by
  refine ⟨by decide, by decide, ?_⟩
  exact ((dbpool_put_health_gate healthScenario (initPoolState 1 2) 1
    (by decide) (by decide)).1 (by decide)).1

/-- C4: `set_user_settings` merges on write.  For an existing row, each
column of the row read back after the upsert is the supplied value when
one was supplied and the previously stored value when the argument was
`None` — exactly the spec-side `mergeField` policy.  For a fresh key, the
claim's concrete scenario holds: `set(key, fieldA="x")` then
`set(key, fieldB="y")` yields `fieldA="x", fieldB="y"` with `fieldC`
still absent. -/
theorem set_user_settings_partial_update (db : SettingsDB) (uid : Int)
    (old : UserSettings) (pf psm pbn : Option String) (db0 : SettingsDB)
    (h : db uid = some old) (h0 : db0 uid = none) :
    get_user_settings (set_user_settings db uid pf psm pbn) uid
      = { preferred_format := mergeField pf old.preferred_format,
          preferred_search_mode := mergeField psm old.preferred_search_mode,
          preferred_book_naming := mergeField pbn old.preferred_book_naming }
    ∧ get_user_settings
        (set_user_settings (set_user_settings db0 uid (some "x") none none) uid
          none (some "y") none) uid
      = { preferred_format := some "x", preferred_search_mode := some "y",
          preferred_book_naming := none } := by
  constructor
  · cases pf <;> cases psm <;> cases pbn <;>
      simp [get_user_settings, set_user_settings, mergeField, h]
  · simp [get_user_settings, set_user_settings, h0]

/-- Witness for `set_user_settings_partial_update`: user 7's populated
row, updating only the format. -/
theorem set_user_settings_partial_update_witness :
    settingsScenarioDB 7 = some { preferred_format := some "fb2",
                                  preferred_search_mode := some "book",
                                  preferred_book_naming := some "title_author" }
    ∧ emptySettingsDB 7 = none
    ∧ get_user_settings (set_user_settings settingsScenarioDB 7 (some "epub") none none) 7
        = { preferred_format := some "epub", preferred_search_mode := some "book",
            preferred_book_naming := some "title_author" }
    ∧ get_user_settings
        (set_user_settings (set_user_settings emptySettingsDB 7 (some "x") none none) 7
          none (some "y") none) 7
        = { preferred_format := some "x", preferred_search_mode := some "y",
            preferred_book_naming := none } := by
  have h := set_user_settings_partial_update settingsScenarioDB 7
    { preferred_format := some "fb2", preferred_search_mode := some "book",
      preferred_book_naming := some "title_author" }
    (some "epub") none none emptySettingsDB (by decide) (by decide)
  exact ⟨by decide, by decide, by simpa [mergeField] using h.1, h.2⟩

theorem set_preserves_nonnull (db : SettingsDB) (uid : Int) (op : SetOp) :
    ((get_user_settings db uid).preferred_format ≠ none →
      (get_user_settings (set_user_settings db op.uid op.pf op.psm op.pbn) uid).preferred_format
        ≠ none)
    ∧ ((get_user_settings db uid).preferred_search_mode ≠ none →
      (get_user_settings (set_user_settings db op.uid op.pf op.psm op.pbn) uid).preferred_search_mode
        ≠ none)
    ∧ ((get_user_settings db uid).preferred_book_naming ≠ none →
      (get_user_settings (set_user_settings db op.uid op.pf op.psm op.pbn) uid).preferred_book_naming
        ≠ none) := by
  by_cases huid : uid = op.uid
  · cases hdb : db op.uid with
    | none =>
      refine ⟨?_, ?_, ?_⟩ <;> intro hne <;>
        simp [get_user_settings, huid, hdb] at hne
    | some old =>
      refine ⟨?_, ?_, ?_⟩ <;> intro hne <;>
        rw [huid] at hne ⊢ <;>
        simp only [get_user_settings, hdb, Option.getD_some] at hne <;>
        cases hpf : op.pf <;> cases hpsm : op.psm <;> cases hpbn : op.pbn <;>
        simp [get_user_settings, set_user_settings, hdb, hpf, hpsm, hpbn, hne]
  · refine ⟨?_, ?_, ?_⟩ <;> intro hne <;>
      simpa [get_user_settings, set_user_settings, huid] using hne

theorem applySets_preserves_nonnull (uid : Int) (ops : List SetOp) : ∀ db : SettingsDB,
    ((get_user_settings db uid).preferred_format ≠ none →
      (get_user_settings (applySets db ops) uid).preferred_format ≠ none)
    ∧ ((get_user_settings db uid).preferred_search_mode ≠ none →
      (get_user_settings (applySets db ops) uid).preferred_search_mode ≠ none)
    ∧ ((get_user_settings db uid).preferred_book_naming ≠ none →
      (get_user_settings (applySets db ops) uid).preferred_book_naming ≠ none) := by
  induction ops with
  | nil => exact fun db => ⟨id, id, id⟩
  | cons op rest ih =>
    intro db
    have h1 := set_preserves_nonnull db uid op
    have h2 := ih (set_user_settings db op.uid op.pf op.psm op.pbn)
    exact ⟨fun h => h2.1 (h1.1 h), fun h => h2.2.1 (h1.2.1 h), fun h => h2.2.2 (h1.2.2 h)⟩

theorem legacy_set_preserves_nonnull (db : LegacyDB) (uid : Int) (op : LegacySetOp) :
    ((legacy_get_user_settings db uid).preferred_format ≠ none →
      (legacy_get_user_settings (legacy_set_user_settings db op.uid op.pf op.psm) uid).preferred_format
        ≠ none)
    ∧ ((legacy_get_user_settings db uid).preferred_search_mode ≠ none →
      (legacy_get_user_settings (legacy_set_user_settings db op.uid op.pf op.psm) uid).preferred_search_mode
        ≠ none) := by
  by_cases huid : uid = op.uid
  · constructor <;> intro hne <;> rw [huid] at hne ⊢
    · cases hpf : op.pf with
      | none => simpa [legacy_set_user_settings, legacy_get_user_settings, pyOr, hpf] using hne
      | some s =>
        by_cases hses : s = "" <;>
          simp [legacy_set_user_settings, pyOr, hpf, hses] <;>
          simpa [legacy_get_user_settings] using hne
    · cases hpsm : op.psm with
      | none => simpa [legacy_set_user_settings, legacy_get_user_settings, pyOr, hpsm] using hne
      | some s =>
        by_cases hses : s = "" <;>
          simp [legacy_set_user_settings, pyOr, hpsm, hses] <;>
          simpa [legacy_get_user_settings] using hne
  · constructor <;> intro hne <;>
      simpa [legacy_get_user_settings, legacy_set_user_settings, huid] using hne

theorem legacyApplySets_preserves_nonnull (uid : Int) (ops : List LegacySetOp) :
    ∀ db : LegacyDB,
    ((legacy_get_user_settings db uid).preferred_format ≠ none →
      (legacy_get_user_settings (legacyApplySets db ops) uid).preferred_format ≠ none)
    ∧ ((legacy_get_user_settings db uid).preferred_search_mode ≠ none →
      (legacy_get_user_settings (legacyApplySets db ops) uid).preferred_search_mode ≠ none) := by
  induction ops with
  | nil => exact fun db => ⟨id, id⟩
  | cons op rest ih =>
    intro db
    have h1 := legacy_set_preserves_nonnull db uid op
    have h2 := ih (legacy_set_user_settings db op.uid op.pf op.psm)
    exact ⟨fun h => h2.1 (h1.1 h), fun h => h2.2 (h1.2 h)⟩

/-- C7: when every attempt fails, both fetch operations raise exactly one
aggregated failure after — and only after — the whole retry budget is
spent, and that failure carries the most recent underlying error (the
classification of the final attempt's response).  For the text fetch with
budget `n+1`, every one of the `n+1` attempts is issued (the trace is the
full attempt sequence `1, ..., n+1`: each intermediate error is absorbed
by the loop, nothing is raised early) and the raised error is that of
attempt `n+1`; for the bytes fetch the trace is the full six-attempt
sequence over both path variants and the raised error is that of the last
attempt `(1, 3)`. -/
theorem retries_exhausted_last_error (oracleT : Nat → Response)
    (oracleB : Nat → Nat → Response) (reg : Registry) (n : Nat) (h : reg ≠ [])
    (hT : ∀ i, 1 ≤ i → i ≤ n + 1 → isSuccessText (oracleT i) = false)
    (hB : ∀ p a, isSuccessBytes (oracleB p a) = false) :
    (fetch_url_with_penalty oracleT reg (n+1)).result
        = .error (classifyText (oracleT (n+1)))
    ∧ (fetch_url_with_penalty oracleT reg (n+1)).trace.map Prod.fst = List.range' 1 (n+1)
    ∧ (download_book oracleB reg).result = .error (classifyBytes (oracleB 1 3))
    ∧ (download_book oracleB reg).trace = lexAttempts := by
  have hText := fetchTextAux_all_fail oracleT n 1 reg none h
    (fun i _hi => hT (1+i) (by omega) (by omega))
  have harith : 1 + n = n + 1 := by omega
  rw [harith] at hText
  obtain ⟨regA, hA, hregA⟩ := downloadInner_all_fail oracleB 0 2 1 reg none h
    (fun i _ => hB 0 (1+i))
  obtain ⟨regB, hBB, _hregB⟩ := downloadInner_all_fail oracleB 1 2 1 regA
    (some (classifyBytes (oracleB 0 (1+2)))) hregA (fun i _ => hB 1 (1+i))
  refine ⟨hText.1, hText.2, ?_, ?_⟩
  · simp only [download_book, downloadOuter, hA, hBB]
    norm_num
  · simp only [download_book, downloadOuter, hA, hBB]
    norm_num
    decide

/-- Witness for `retries_exhausted_last_error`: every text attempt times
out (budget 3), every bytes attempt answers HTTP 500. -/
theorem retries_exhausted_last_error_witness :
    mirror_state ≠ []
    ∧ (fetch_url_with_penalty (fun _ => Response.timeout) mirror_state 3).result
        = .error .timeoutError
    ∧ (download_book (fun _ _ => Response.http 500 "") mirror_state).result
        = .error (.httpError 500)
    ∧ (download_book (fun _ _ => Response.http 500 "") mirror_state).trace = lexAttempts := by
  have h := retries_exhausted_last_error (fun _ => Response.timeout)
    (fun _ _ => Response.http 500 "") mirror_state 2 (by decide)
    (fun _i _ _ => rfl) (fun _p _a => rfl)
  exact ⟨by decide, h.1, h.2.2.1, h.2.2.2⟩

/-- C6: `download_book` walks its path variants outer-to-inner — the full
three-attempt retry budget of variant 0 is spent before any attempt on
variant 1 — and returns the body of the first attempt, in that order,
whose response is HTTP 200 with non-empty content (a 200 with empty body
counts as a failure).  Stated for any oracle with at least one successful
attempt (`hpr` names the first success `pr` in the lexicographic attempt
order): the issued attempts are exactly the failing lexicographic prefix
followed by `pr`, and the returned bytes are `pr`'s body.  (The
no-success case is covered by `retries_exhausted_last_error`.) -/
theorem download_book_variant_order (oracle : Nat → Nat → Response) (reg : Registry)
    (pr : Nat × Nat) (h : reg ≠ [])
    (hpr : (lexAttempts.dropWhile (notSuccAt oracle)).head? = some pr) :
    (download_book oracle reg).trace = lexAttempts.takeWhile (notSuccAt oracle) ++ [pr]
    ∧ (download_book oracle reg).result = .ok (respBody (oracle pr.1 pr.2)) := by
  cases h01 : isSuccessBytes (oracle 0 1) with
  | true =>
    obtain ⟨regA, leA, hin⟩ := downloadInner_first_success oracle 0 0 3 1 reg none h
      (by omega) (fun i hi => absurd hi (by omega)) h01
    obtain rfl : ((0 : Nat), (1 : Nat)) = pr := Option.some_inj.mp
      (by simpa [lexAttempts, notSuccAt, h01] using hpr)
    constructor <;>
      simp [download_book, downloadOuter, hin, lexAttempts, notSuccAt, h01, innerPairs,
        List.range']
  | false =>
  cases h02 : isSuccessBytes (oracle 0 2) with
  | true =>
    obtain ⟨regA, leA, hin⟩ := downloadInner_first_success oracle 0 1 3 1 reg none h
      (by omega)
      (fun i hi => by
        match i, hi with
        | 0, _ => exact h01)
      h02
    obtain rfl : ((0 : Nat), (2 : Nat)) = pr := Option.some_inj.mp
      (by simpa [lexAttempts, notSuccAt, h01, h02] using hpr)
    constructor <;>
      simp [download_book, downloadOuter, hin, lexAttempts, notSuccAt, h01, h02, innerPairs,
        List.range']
  | false =>
  cases h03 : isSuccessBytes (oracle 0 3) with
  | true =>
    obtain ⟨regA, leA, hin⟩ := downloadInner_first_success oracle 0 2 3 1 reg none h
      (by omega)
      (fun i hi => by
        match i, hi with
        | 0, _ => exact h01
        | 1, _ => exact h02)
      h03
    obtain rfl : ((0 : Nat), (3 : Nat)) = pr := Option.some_inj.mp
      (by simpa [lexAttempts, notSuccAt, h01, h02, h03] using hpr)
    constructor <;>
      simp [download_book, downloadOuter, hin, lexAttempts, notSuccAt, h01, h02, h03,
        innerPairs, List.range']
  | false =>
  obtain ⟨regA, hin0, hregA⟩ := downloadInner_all_fail oracle 0 2 1 reg none h
    (fun i hi => by
      match i, hi with
      | 0, _ => exact h01
      | 1, _ => exact h02
      | 2, _ => exact h03)
  cases h11 : isSuccessBytes (oracle 1 1) with
  | true =>
    obtain ⟨regB, leB, hin1⟩ := downloadInner_first_success oracle 1 0 3 1 regA
      (some (classifyBytes (oracle 0 (1+2)))) hregA (by omega)
      (fun i hi => absurd hi (by omega)) h11
    obtain rfl : ((1 : Nat), (1 : Nat)) = pr := Option.some_inj.mp
      (by simpa [lexAttempts, notSuccAt, h01, h02, h03, h11] using hpr)
    constructor <;>
      simp [download_book, downloadOuter, hin0, hin1, lexAttempts, notSuccAt, h01, h02, h03,
        h11, innerPairs, List.range']
  | false =>
  cases h12 : isSuccessBytes (oracle 1 2) with
  | true =>
    obtain ⟨regB, leB, hin1⟩ := downloadInner_first_success oracle 1 1 3 1 regA
      (some (classifyBytes (oracle 0 (1+2)))) hregA (by omega)
      (fun i hi => by
        match i, hi with
        | 0, _ => exact h11)
      h12
    obtain rfl : ((1 : Nat), (2 : Nat)) = pr := Option.some_inj.mp
      (by simpa [lexAttempts, notSuccAt, h01, h02, h03, h11, h12] using hpr)
    constructor <;>
      simp [download_book, downloadOuter, hin0, hin1, lexAttempts, notSuccAt, h01, h02, h03,
        h11, h12, innerPairs, List.range']
  | false =>
  cases h13 : isSuccessBytes (oracle 1 3) with
  | true =>
    obtain ⟨regB, leB, hin1⟩ := downloadInner_first_success oracle 1 2 3 1 regA
      (some (classifyBytes (oracle 0 (1+2)))) hregA (by omega)
      (fun i hi => by
        match i, hi with
        | 0, _ => exact h11
        | 1, _ => exact h12)
      h13
    obtain rfl : ((1 : Nat), (3 : Nat)) = pr := Option.some_inj.mp
      (by simpa [lexAttempts, notSuccAt, h01, h02, h03, h11, h12, h13] using hpr)
    constructor <;>
      simp [download_book, downloadOuter, hin0, hin1, lexAttempts, notSuccAt, h01, h02, h03,
        h11, h12, h13, innerPairs, List.range']
  | false =>
    exact absurd hpr (by simp [lexAttempts, notSuccAt, h01, h02, h03, h11, h12, h13])

/-- Witness for `download_book_variant_order`: the claimed scenario —
variant 0 always answers 200 with empty content, variant 1 with the
payload; the download exhausts all three attempts of variant 0 first and
returns variant 1's payload on attempt `(1, 1)`. -/
theorem download_book_variant_order_witness :
    mirror_state ≠ []
    ∧ (lexAttempts.dropWhile (notSuccAt bytesScenarioOracle)).head? = some (1, 1)
    ∧ (download_book bytesScenarioOracle mirror_state).trace
        = [(0, 1), (0, 2), (0, 3), (1, 1)]
    ∧ (download_book bytesScenarioOracle mirror_state).result = .ok "payload" := by
  have h := download_book_variant_order bytesScenarioOracle mirror_state (1, 1)
    (by decide) (by decide)
  refine ⟨by decide, by decide, ?_, ?_⟩
  · rw [h.1]; decide
  · rw [h.2]; decide

/-- C10 (implicit): the settings stores can never clear a stored field
back to absent.  In the current store (`services/db.py`) a supplied
`None` behaves exactly like an omitted argument (both yield `COALESCE`
keeping the old value; last conjunct: a `set` supplying nothing is
observationally a no-op), so after any sequence of `set_user_settings`
calls a field that was non-`NULL` is still non-`NULL` (first three
conjuncts, one per column).  In the legacy store (`db.py`) any falsy
value — `None` or the empty string — behaves like an omitted argument
(conjuncts six and seven: `set` with `""` equals `set` with `None`), and
the same preservation holds (conjuncts four and five). -/
theorem settings_field_never_cleared (db : SettingsDB) (uid : Int) (ops : List SetOp)
    (ldb : LegacyDB) (luid : Int) (lops : List LegacySetOp)
    (lpf lpsm : Option String) (u2 : Int) :
    ((get_user_settings db uid).preferred_format ≠ none →
      (get_user_settings (applySets db ops) uid).preferred_format ≠ none)
    ∧ ((get_user_settings db uid).preferred_search_mode ≠ none →
      (get_user_settings (applySets db ops) uid).preferred_search_mode ≠ none)
    ∧ ((get_user_settings db uid).preferred_book_naming ≠ none →
      (get_user_settings (applySets db ops) uid).preferred_book_naming ≠ none)
    ∧ ((legacy_get_user_settings ldb luid).preferred_format ≠ none →
      (legacy_get_user_settings (legacyApplySets ldb lops) luid).preferred_format ≠ none)
    ∧ ((legacy_get_user_settings ldb luid).preferred_search_mode ≠ none →
      (legacy_get_user_settings (legacyApplySets ldb lops) luid).preferred_search_mode ≠ none)
    ∧ legacy_set_user_settings ldb luid (some "") lpsm u2
        = legacy_set_user_settings ldb luid none lpsm u2
    ∧ legacy_set_user_settings ldb luid lpf (some "") u2
        = legacy_set_user_settings ldb luid lpf none u2
    ∧ get_user_settings (set_user_settings db uid none none none) u2
        = get_user_settings db u2 := by
  have hnew := applySets_preserves_nonnull uid ops db
  have hleg := legacyApplySets_preserves_nonnull luid lops ldb
  refine ⟨hnew.1, hnew.2.1, hnew.2.2, hleg.1, hleg.2, ?_, ?_, ?_⟩
  · simp [legacy_set_user_settings, pyOr]
  · simp [legacy_set_user_settings, pyOr]
  · by_cases hu : u2 = uid
    · cases hdb : db uid <;>
        simp [get_user_settings, set_user_settings, hu, hdb]
    · simp [get_user_settings, set_user_settings, hu]

/-- Witness for `settings_field_never_cleared`: user 7's populated rows
surviving the scenario update sequences in both stores, and the legacy
empty-string call coinciding with the omitted-argument call. -/
theorem settings_field_never_cleared_witness :
    (get_user_settings settingsScenarioDB 7).preferred_format ≠ none
    ∧ (get_user_settings (applySets settingsScenarioDB settingsScenarioOps) 7).preferred_format
        ≠ none
    ∧ (legacy_get_user_settings legacyScenarioDB 7).preferred_format ≠ none
    ∧ (legacy_get_user_settings (legacyApplySets legacyScenarioDB legacyScenarioOps) 7).preferred_format
        ≠ none
    ∧ legacy_set_user_settings legacyScenarioDB 7 (some "") none 7
        = legacy_set_user_settings legacyScenarioDB 7 none none 7 := by
  have h := settings_field_never_cleared settingsScenarioDB 7 settingsScenarioOps
    legacyScenarioDB 7 legacyScenarioOps (some "fb2") none 7
  exact ⟨by decide, h.1 (by decide), by decide, h.2.2.2.1 (by decide), h.2.2.2.2.2.1⟩

end Flibusta
